import Mathlib

/-!
Shallow embedding of the Churn_Prediction repository: the Flask server
(src/Churn_App/backend/app.py) and the training script
(src/Churn_App/backend/train_model.py).

Conventions of the embedding:
- machine floats are idealised as rationals;
- the scikit-learn / XGBoost classifier stage is an external black box:
  it is represented by the probability contract its documentation states
  (predict_proba rows are non-negative and sum to 1, and binary predict
  is the argmax over the two class probabilities, ties resolved to the
  first class: LogisticRegression thresholds its decision function at
  strictly positive, RandomForest and XGBClassifier take a numpy argmax,
  which returns the first index on an exact tie);
- fallible library calls (request parsing, pandas, SHAP) appear as
  Except values or as function parameters returning Except, mirroring
  the try/except structure of the handlers;
- the in-memory pandas dataframe of app.py is a ServerState record: its
  rows plus the two derived bucket columns the dashboard handler writes
  into it, modelled as Option columns (none = column absent).
-/

namespace ChurnApp

/-- Output row of the external classifier's predict_proba for one input
record: class-0 and class-1 probabilities. -/
structure BinaryProba where
  p0 : ℚ
  p1 : ℚ

/-- Modelled from the spec: the library contract of predict_proba — both
entries non-negative and summing to one. -/
def BinaryProba.valid (o : BinaryProba) : Prop :=
  0 ≤ o.p0 ∧ 0 ≤ o.p1 ∧ o.p0 + o.p1 = 1

/-- Modelled from the spec: the external classifier's binary predict, the
argmax of the two class probabilities with ties resolved to class 0 (the
scikit-learn and XGBoost default decision rule). -/
def classPredict (o : BinaryProba) : ℕ :=
  if o.p0 < o.p1 then 1 else 0

/-- JSON payload returned by the predict endpoint (app.py lines 71-74). -/
structure PredictResponse where
  prediction : ℕ
  probability : ℚ

/-- Result of a request handler: a success payload or a 400-style error
response produced by the except branch. -/
inductive ApiResult (α : Type) where
  | ok (payload : α)
  | clientError (status : ℕ) (message : String)

/-- The predict endpoint (app.py lines 61-76): on a successful model call
it returns the predicted class and the class-1 probability; any raised
exception becomes a 400 with the error text. -/
def predictHandler (proba : Except String BinaryProba) : ApiResult PredictResponse :=
  match proba with
  | Except.error e => ApiResult.clientError 400 e
  | Except.ok o => ApiResult.ok ⟨classPredict o, o.p1⟩

/-- Python round half-to-even at integer precision (the tie rule of the
builtin round used by train_model.py). -/
def pyRoundInt (x : ℚ) : ℤ :=
  if x - ⌊x⌋ < 1/2 then ⌊x⌋
  else if 1/2 < x - ⌊x⌋ then ⌊x⌋ + 1
  else if 2 ∣ ⌊x⌋ then ⌊x⌋ else ⌊x⌋ + 1

/-- Python round(x, n): round half-to-even at n decimal digits. -/
def pyRound (n : ℕ) (x : ℚ) : ℚ :=
  (pyRoundInt (x * 10 ^ n) : ℚ) / 10 ^ n

/-- One family's entry in metrics.json (train_model.py lines 168-172):
auc and accuracy rounded to 3 decimal places plus the feature-importance
mapping. -/
structure FamilyMetrics where
  auc : ℚ
  accuracy : ℚ
  feature_importance : List (String × ℚ)

/-- Evaluation outcome of one candidate model family in the training
loop: its name, held-out auc and accuracy, and the outcome of the
feature-importance extraction (train_model.py lines 144-166; the
extraction sits in a try/except, hence Except). -/
structure FamilyResult where
  name : String
  auc : ℚ
  accuracy : ℚ
  rawImportance : Except String (List (String × ℚ))

/-- Top-20 feature importance selection (train_model.py lines 157-164):
stable sort of (name, value) pairs by descending absolute value, keep the
first 20, round each kept value to 4 decimal places. -/
def topImportance (l : List (String × ℚ)) : List (String × ℚ) :=
  ((l.mergeSort fun a b => decide (|b.2| ≤ |a.2|)).take 20).map fun q => (q.1, pyRound 4 q.2)

/-- Feature-importance mapping recorded for a family: empty when the
extraction raised (train_model.py lines 145-146 and 165-166), otherwise
the top-20 selection. -/
def familyImportance (r : Except String (List (String × ℚ))) : List (String × ℚ) :=
  match r with
  | Except.error _ => []
  | Except.ok l => topImportance l

/-- The metrics dictionary built by the training loop (train_model.py
lines 168-172): one entry per attempted family, in loop order. -/
def buildMetrics (fams : List FamilyResult) : List (String × FamilyMetrics) :=
  fams.map fun r => (r.name, ⟨pyRound 3 r.auc, pyRound 3 r.accuracy, familyImportance r.rawImportance⟩)

/-- The best-model selection fold of the training loop (train_model.py
lines 97-100 and 175-178): the accumulator (best name, best auc) starts
at (none, -1) and is replaced only on strict auc improvement. -/
def trainLoop (acc : Option String × ℚ) : List FamilyResult → Option String × ℚ
  | [] => acc
  | r :: rest => trainLoop (if acc.2 < r.auc then (some r.name, r.auc) else acc) rest

/-- One iteration of the best-model update (train_model.py
lines 175-178), factored out of the loop for the proofs. -/
def stepBest (acc : Option String × ℚ) (m : FamilyResult) : Option String × ℚ :=
  if acc.2 < m.auc then (some m.name, m.auc) else acc

/-- End of the training run (train_model.py lines 183-194): none models
the sys.exit(1) taken when no family was trained; otherwise the metrics
report together with the selected model name that is written under the
current_model key. -/
def runTrainer (fams : List FamilyResult) : Option (List (String × FamilyMetrics) × String) :=
  match trainLoop (none, -1) fams with
  | (none, _) => none
  | (some n, _) => some (buildMetrics fams, n)

/-- Specification-side helper: the first element of the list attaining
the maximum auc (head is kept on ties, later elements win only when
strictly larger). -/
def firstMax : List FamilyResult → Option FamilyResult
  | [] => none
  | r :: rest =>
    match firstMax rest with
    | none => some r
    | some m => if r.auc < m.auc then some m else some r

/-- One row of the dataset as the dashboard uses it (app.py lines 38-40
and 79-108): the Contract, tenure, MonthlyCharges columns and the Churn
label already mapped Yes to 1 and No to 0. -/
structure CustomerRow where
  contract : String
  tenure : ℚ
  monthlyCharges : ℚ
  churn : ℚ

/-- Content of metrics.json as the server reads it: the per-family
entries and the current_model key (which the trainer always writes, but
json.load makes no such promise, hence Option). In the real JSON object
current_model is one more top-level key; the fixed family names of
train_model.py lines 65-73 never collide with it, so the split
representation is faithful. -/
structure MetricsFile where
  entries : List (String × FamilyMetrics)
  current_model : Option String

/-- The process-wide state of app.py: the in-memory dataframe (its rows
plus the two derived bucket columns dashboard writes into it, none while
a column does not exist yet) and the metrics.json content (none when the
file is absent). -/
structure ServerState where
  rows : List CustomerRow
  tenureBucketCol : Option (List String)
  monthlyBucketCol : Option (List String)
  metricsFile : Option MetricsFile

/-- Tenure bucketing (app.py lines 87-93). -/
def tenure_bucket (t : ℚ) : String :=
  if t ≤ 12 then "0-12" else if t ≤ 24 then "13-24" else "25+"

/-- Monthly-charge bucketing (app.py lines 99-105). -/
def monthly_bucket (m : ℚ) : String :=
  if m ≤ 50 then "0-50" else if m ≤ 100 then "51-100" else "101+"

/-- Values grouped under one key, for the pandas groupby embedding. -/
def groupVals (pairs : List (String × ℚ)) (k : String) : List ℚ :=
  (pairs.filter fun p => decide (p.1 = k)).map Prod.snd

/-- pandas groupby(key)[value].mean().to_dict() over a list of
(key, value) pairs: one entry per distinct key, carrying the mean of the
values grouped under it. -/
def groupMeanKV (pairs : List (String × ℚ)) : List (String × ℚ) :=
  ((pairs.map Prod.fst).dedup).map fun k =>
    (k, (groupVals pairs k).sum / ((groupVals pairs k).length : ℚ))

/-- JSON payload of the dashboard endpoint (app.py lines 118-124). -/
structure DashResponse where
  contract : List (String × ℚ)
  tenure : List (String × ℚ)
  monthly : List (String × ℚ)
  metrics : Option MetricsFile
  active_model : Option String

/-- The dashboard endpoint (app.py lines 79-124): computes the three
churn-rate groupings, writes the TenureBucket and MonthlyBucket columns
into the shared dataframe in place, and attaches the metrics report. -/
def dashboardHandler (s : ServerState) : DashResponse × ServerState :=
  let contractRates := groupMeanKV (s.rows.map fun r => (r.contract, r.churn))
  let tcol := s.rows.map fun r => tenure_bucket r.tenure
  let tenureRates := groupMeanKV (s.rows.map fun r => (tenure_bucket r.tenure, r.churn))
  let mcol := s.rows.map fun r => monthly_bucket r.monthlyCharges
  let monthlyRates := groupMeanKV (s.rows.map fun r => (monthly_bucket r.monthlyCharges, r.churn))
  (⟨contractRates, tenureRates, monthlyRates, s.metricsFile,
      s.metricsFile.bind fun m => m.current_model⟩,
    { s with tenureBucketCol := some tcol, monthlyBucketCol := some mcol })

/-- JSON payload of the feature-importance endpoint (app.py
lines 141-144). -/
structure FIResponse where
  active_model : Option String
  feature_importance : List (String × ℚ)

/-- The feature-importance endpoint (app.py lines 127-144): reads
metrics.json, and returns the active model's feature-importance mapping
when the active model is truthy and a key of the report, otherwise the
empty mapping. It writes nothing. -/
def featureImportanceHandler (s : ServerState) : FIResponse × ServerState :=
  match s.metricsFile with
  | none => (⟨none, []⟩, s)
  | some mf =>
    match mf.current_model with
    | none => (⟨none, []⟩, s)
    | some nm =>
      if nm = "" then (⟨some nm, []⟩, s)
      else
        match mf.entries.lookup nm with
        | some fm => (⟨some nm, fm.feature_importance⟩, s)
        | none => (⟨some nm, []⟩, s)

/-- JSON payload of the explain endpoint (app.py lines 162-166): the
input record's features, the per-feature SHAP values and the base
value. -/
structure ExplainOut where
  features : List (String × ℚ)
  shap_values : List ℚ
  base_value : ℚ

/-- The explain endpoint (app.py lines 147-170): the whole body — input
parsing, preprocessing, SHAP — is one external computation inside
try/except, passed here as its outcome. It reads only the request input
and never touches the shared dataframe, so the state comes back
unchanged. -/
def explainHandler (s : ServerState) (shapOutcome : Except String ExplainOut) :
    ApiResult ExplainOut × ServerState :=
  (match shapOutcome with
    | Except.ok o => ApiResult.ok o
    | Except.error e => ApiResult.clientError 400 e, s)

/-- JSON payload of the health endpoint (app.py lines 54-58). -/
structure HealthResponse where
  status : String
  model_loaded : Bool
  active_model : Option String

/-- The health endpoint (app.py lines 45-58): status and model_loaded
are hardcoded constants; only active_model is read from metrics.json. -/
def healthHandler (s : ServerState) : HealthResponse :=
  ⟨"ok", true, s.metricsFile.bind fun m => m.current_model⟩

/-- Server startup (app.py lines 22-36): the process raises before
binding its port when the model artifact or the dataset file is
missing. -/
def serverStartup (modelFileExists dataFileExists : Bool) : Except String Unit :=
  if modelFileExists = false then
    Except.error "❌ model.pkl not found. Please run train_model.py first."
  else if dataFileExists = false then
    Except.error "❌ Telco_Cust_Churn.csv not found. Please place Telco_Cust_Churn.csv in backend/."
  else Except.ok ()

/-- Response of the batch-predict endpoint (app.py lines 217-220): the
uploaded rows each paired with their prediction and probability, plus
the batch feature importance; or a 400 error. -/
inductive BatchResponse (ρ : Type) where
  | ok (predictions : List (ρ × ℕ × ℚ)) (batch_feature_importance : List (String × ℚ))
  | clientError (status : ℕ) (message : String)

/-- The batch-predict endpoint (app.py lines 173-224): rejects a request
without a file part, propagates a CSV parse failure as 400, rejects an
empty parsed table with 400 "Uploaded CSV is empty", otherwise runs the
model over all rows (a model failure is caught by the outer except as
400) and attaches the batch SHAP importance, which falls back to the
empty mapping when the inner SHAP computation raises. -/
def batch_predict {ρ : Type} (hasFile : Bool) (parsed : Except String (List ρ))
    (predictRows : List ρ → Except String (List (ℕ × ℚ)))
    (shapRows : List ρ → Except String (List (String × ℚ))) : BatchResponse ρ :=
  if hasFile = false then BatchResponse.clientError 400 "No file uploaded"
  else
    match parsed with
    | Except.error e => BatchResponse.clientError 400 e
    | Except.ok rows =>
      if rows.isEmpty then BatchResponse.clientError 400 "Uploaded CSV is empty"
      else
        match predictRows rows with
        | Except.error e => BatchResponse.clientError 400 e
        | Except.ok ps =>
          let fi := match shapRows rows with
            | Except.ok m => m
            | Except.error _ => []
          BatchResponse.ok (rows.zip ps) fi

/-- Concrete predict_proba output with both classes at exactly one half. -/
def tieProba : BinaryProba := ⟨1/2, 1/2⟩

/-- Concrete predict_proba output with a clear class-1 majority. -/
def demoProba : BinaryProba := ⟨1/4, 3/4⟩

/-- Concrete server state with no bucket columns present yet. -/
def noBucketState : ServerState := ⟨[], none, none, none⟩

/-- Concrete single-row dataset for dashboard evaluations. -/
def demoState : ServerState :=
  ⟨[⟨"Month-to-month", 5, 30, 1⟩], none, none, none⟩

/-- Concrete batch upload with one row. -/
def demoBatchRows : List String := ["row1"]

/-- Concrete family evaluation outcomes with a tie in auc between the
first two families. -/
def demoFams : List FamilyResult :=
  [⟨"Logistic Regression", 4/5, 7/10, Except.ok [("tenure", 2)]⟩,
   ⟨"Random Forest", 4/5, 3/4, Except.ok []⟩,
   ⟨"XGBoost", 3/4, 7/10, Except.error "no importance attribute"⟩]

/-- Concrete raw feature-importance list. -/
def demoImportance : List (String × ℚ) := [("tenure", -2)]

/-! Helper lemmas shared between the claim theorems. -/

theorem fi_state_unchanged (s : ServerState) : (featureImportanceHandler s).2 = s := by
  unfold featureImportanceHandler
  repeat' split
  all_goals rfl

/-- C10: the health endpoint's model_loaded field is the hardcoded
constant true for every server state; the model artifact's existence is
checked only at startup, where a missing artifact prevents the server
from starting at all. -/
theorem health_model_loaded_constant :
    (∀ s : ServerState, (healthHandler s).model_loaded = true ∧ (healthHandler s).status = "ok") ∧
    (∀ d, serverStartup false d =
      Except.error "❌ model.pkl not found. Please run train_model.py first.") :=
  ⟨fun _ => ⟨rfl, rfl⟩, fun _ => rfl⟩

/-- C4: batch-predict on an upload whose parsed table has no rows
returns a 400 error with message "Uploaded CSV is empty"; the error
constructor carries no prediction payload, so no partial output is
produced. -/
theorem batch_predict_empty_table {ρ : Type}
    (predictRows : List ρ → Except String (List (ℕ × ℚ)))
    (shapRows : List ρ → Except String (List (String × ℚ))) :
    batch_predict true (Except.ok ([] : List ρ)) predictRows shapRows =
      BatchResponse.clientError 400 "Uploaded CSV is empty" := rfl

/-- C5: when per-row prediction succeeds and the batch SHAP computation
fails, the batch-predict response is still a success carrying one
(row, prediction, probability) triple per uploaded row, with the batch
feature importance equal to the empty mapping. -/
theorem batch_predict_shap_nonfatal {ρ : Type} (rows : List ρ) (ps : List (ℕ × ℚ))
    (predictRows : List ρ → Except String (List (ℕ × ℚ)))
    (shapRows : List ρ → Except String (List (String × ℚ))) (e : String)
    (hne : rows ≠ []) (hp : predictRows rows = Except.ok ps)
    (hlen : ps.length = rows.length) (hs : shapRows rows = Except.error e) :
    batch_predict true (Except.ok rows) predictRows shapRows =
      BatchResponse.ok (rows.zip ps) [] ∧
    (rows.zip ps).map Prod.fst = rows ∧ (rows.zip ps).length = rows.length := by
  refine ⟨?_, List.map_fst_zip rows ps (le_of_eq hlen.symm), ?_⟩
  · simp [batch_predict, List.isEmpty_iff, hne, hp, hs]
  · rw [List.length_zip, hlen, min_self]

theorem batch_predict_shap_nonfatal_witness :
    batch_predict true (Except.ok demoBatchRows)
        (fun l => Except.ok (l.map fun _ => (1, 3/4)))
        (fun _ => Except.error "shap failed") =
      BatchResponse.ok (demoBatchRows.zip (demoBatchRows.map fun _ => (1, (3:ℚ)/4))) [] ∧
    (demoBatchRows.zip (demoBatchRows.map fun _ => (1, (3:ℚ)/4))).map Prod.fst = demoBatchRows ∧
    (demoBatchRows.zip (demoBatchRows.map fun _ => (1, (3:ℚ)/4))).length = demoBatchRows.length :=
  batch_predict_shap_nonfatal demoBatchRows _ _ _ "shap failed"
    (by simp [demoBatchRows]) rfl (by simp) rfl

/-- C8: with the dataset in memory and the metrics file unchanged, a
second dashboard call (run on the state the first call mutated) returns
the same response and state as the first, and likewise for the
feature-importance endpoint. -/
theorem dashboard_fi_idempotent (s : ServerState) :
    dashboardHandler ((dashboardHandler s).2) = dashboardHandler s ∧
    featureImportanceHandler ((featureImportanceHandler s).2) = featureImportanceHandler s := by
  constructor
  · rfl
  · rw [fi_state_unchanged]

/-- C9 counterexample: the explain handler does not add the bucket
columns to the shared dataframe — on a state without bucket columns they
are still absent after an explain request, refuting the claim that both
handlers mutate the shared dataframe on every request. -/
theorem explain_leaves_buckets_absent :
    (explainHandler noBucketState (Except.error "boom")).2.tenureBucketCol = none ∧
    (explainHandler noBucketState (Except.error "boom")).2.monthlyBucketCol = none :=
  ⟨rfl, rfl⟩

/-- C9 amended: on every request the dashboard handler mutates the
shared dataframe in place by writing the TenureBucket and MonthlyBucket
columns, leaving the rows and the metrics content unchanged; the explain
handler does not touch the shared dataframe at all. -/
theorem dashboard_mutates_explain_reads_only (s : ServerState) :
    ((dashboardHandler s).2.rows = s.rows ∧
      (dashboardHandler s).2.metricsFile = s.metricsFile ∧
      (dashboardHandler s).2.tenureBucketCol =
        some (s.rows.map fun r => tenure_bucket r.tenure) ∧
      (dashboardHandler s).2.monthlyBucketCol =
        some (s.rows.map fun r => monthly_bucket r.monthlyCharges)) ∧
    ∀ outcome, (explainHandler s outcome).2 = s :=
  ⟨⟨rfl, rfl, rfl, rfl⟩, fun _ => rfl⟩

/-- C1 counterexample: at class-1 probability exactly one half the
library's decision rule returns prediction 0 even though the probability
is at least one half, so "prediction = 1 iff probability at least 0.5"
fails at this input. -/
theorem predict_at_half_returns_zero :
    tieProba.valid ∧ (1/2 : ℚ) ≤ tieProba.p1 ∧
    predictHandler (Except.ok tieProba) = ApiResult.ok ⟨0, 1/2⟩ := by
  have h0 : classPredict tieProba = 0 := by
    simp only [classPredict, tieProba]
    norm_num
  refine ⟨⟨by norm_num [tieProba], by norm_num [tieProba], by norm_num [tieProba]⟩,
    by norm_num [tieProba], ?_⟩
  have hp : predictHandler (Except.ok tieProba) =
      ApiResult.ok ⟨classPredict tieProba, tieProba.p1⟩ := rfl
  rw [hp, h0]
  rfl

/-- C1 amended: for a valid probability output the predict endpoint
returns the class-1 probability, which lies in the unit interval, and a
prediction in 0 or 1, with prediction = 1 iff the probability strictly
exceeds one half (at exactly one half the prediction is 0). -/
theorem predict_contract (o : BinaryProba) (h : o.valid) :
    predictHandler (Except.ok o) = ApiResult.ok ⟨classPredict o, o.p1⟩ ∧
    0 ≤ o.p1 ∧ o.p1 ≤ 1 ∧
    (classPredict o = 0 ∨ classPredict o = 1) ∧
    (classPredict o = 1 ↔ 1/2 < o.p1) := by
  obtain ⟨h0, h1, hsum⟩ := h
  refine ⟨rfl, h1, by linarith, ?_, ?_⟩
  · unfold classPredict
    split
    · right; rfl
    · left; rfl
  · unfold classPredict
    by_cases hlt : o.p0 < o.p1
    · rw [if_pos hlt]
      simp only [true_iff]
      linarith
    · rw [if_neg hlt]
      simp only [Nat.zero_ne_one, false_iff, not_lt]
      have := not_lt.mp hlt
      linarith

theorem predict_contract_witness :
    predictHandler (Except.ok demoProba) = ApiResult.ok ⟨classPredict demoProba, demoProba.p1⟩ ∧
    0 ≤ demoProba.p1 ∧ demoProba.p1 ≤ 1 ∧
    (classPredict demoProba = 0 ∨ classPredict demoProba = 1) ∧
    (classPredict demoProba = 1 ↔ 1/2 < demoProba.p1) :=
  predict_contract demoProba (by norm_num [demoProba, BinaryProba.valid])

theorem groupVals_bounds (pairs : List (String × ℚ))
    (h : ∀ p ∈ pairs, 0 ≤ p.2 ∧ p.2 ≤ 1) (k : String) :
    ∀ x ∈ groupVals pairs k, 0 ≤ x ∧ x ≤ 1 := by
  intro x hx
  rw [groupVals, List.mem_map] at hx
  obtain ⟨p, hp, rfl⟩ := hx
  exact h p (List.mem_of_mem_filter hp)

theorem groupMeanKV_val_bounds (pairs : List (String × ℚ))
    (h : ∀ p ∈ pairs, 0 ≤ p.2 ∧ p.2 ≤ 1) :
    ∀ q ∈ groupMeanKV pairs, 0 ≤ q.2 ∧ q.2 ≤ 1 := by
  intro q hq
  rw [groupMeanKV, List.mem_map] at hq
  obtain ⟨k, hk, rfl⟩ := hq
  dsimp only
  constructor
  · apply div_nonneg
    · exact List.sum_nonneg fun x hx => (groupVals_bounds pairs h k x hx).1
    · positivity
  · rcases eq_or_ne (groupVals pairs k).length 0 with hl | hl
    · rw [hl]
      simp
    · rw [div_le_one (by positivity)]
      have hs := List.sum_le_card_nsmul (groupVals pairs k) 1
        fun x hx => (groupVals_bounds pairs h k x hx).2
      simpa using hs

theorem groupMeanKV_keys (pairs : List (String × ℚ)) :
    ∀ q ∈ groupMeanKV pairs, ∃ p ∈ pairs, q.1 = p.1 := by
  intro q hq
  rw [groupMeanKV, List.mem_map] at hq
  obtain ⟨k, hk, rfl⟩ := hq
  rw [List.mem_dedup, List.mem_map] at hk
  obtain ⟨p, hp, hpk⟩ := hk
  exact ⟨p, hp, hpk.symm⟩

theorem tenure_bucket_range (t : ℚ) :
    tenure_bucket t = "0-12" ∨ tenure_bucket t = "13-24" ∨ tenure_bucket t = "25+" := by
  unfold tenure_bucket
  split_ifs <;> simp

theorem monthly_bucket_range (m : ℚ) :
    monthly_bucket m = "0-50" ∨ monthly_bucket m = "51-100" ∨ monthly_bucket m = "101+" := by
  unfold monthly_bucket
  split_ifs <;> simp

theorem label_pairs_bounded (rows : List CustomerRow) (f : CustomerRow → String)
    (hlab : ∀ r ∈ rows, r.churn = 0 ∨ r.churn = 1) :
    ∀ p ∈ rows.map fun r => (f r, r.churn), 0 ≤ p.2 ∧ p.2 ≤ 1 := by
  intro p hp
  rw [List.mem_map] at hp
  obtain ⟨r, hr, rfl⟩ := hp
  rcases hlab r hr with h | h <;> rw [h] <;> norm_num

/-- C6: when every row's normalized label is 0 or 1, all three churn-rate
mappings of the dashboard response take values in the unit interval, the
tenure mapping's keys come from the fixed tenure buckets, and the monthly
mapping's keys come from the fixed monthly-charge buckets. -/
theorem dashboard_rates_bounded (s : ServerState)
    (hlab : ∀ r ∈ s.rows, r.churn = 0 ∨ r.churn = 1) :
    (∀ q ∈ (dashboardHandler s).1.contract, 0 ≤ q.2 ∧ q.2 ≤ 1) ∧
    (∀ q ∈ (dashboardHandler s).1.tenure, (0 ≤ q.2 ∧ q.2 ≤ 1) ∧
      (q.1 = "0-12" ∨ q.1 = "13-24" ∨ q.1 = "25+")) ∧
    (∀ q ∈ (dashboardHandler s).1.monthly, (0 ≤ q.2 ∧ q.2 ≤ 1) ∧
      (q.1 = "0-50" ∨ q.1 = "51-100" ∨ q.1 = "101+")) := by
  have hc : (dashboardHandler s).1.contract =
      groupMeanKV (s.rows.map fun r => (r.contract, r.churn)) := rfl
  have ht : (dashboardHandler s).1.tenure =
      groupMeanKV (s.rows.map fun r => (tenure_bucket r.tenure, r.churn)) := rfl
  have hm : (dashboardHandler s).1.monthly =
      groupMeanKV (s.rows.map fun r => (monthly_bucket r.monthlyCharges, r.churn)) := rfl
  refine ⟨?_, ?_, ?_⟩
  · rw [hc]
    exact groupMeanKV_val_bounds _ (label_pairs_bounded s.rows _ hlab)
  · rw [ht]
    intro q hq
    refine ⟨groupMeanKV_val_bounds _ (label_pairs_bounded s.rows _ hlab) q hq, ?_⟩
    obtain ⟨p, hp, hqp⟩ := groupMeanKV_keys _ q hq
    rw [List.mem_map] at hp
    obtain ⟨r, _, rfl⟩ := hp
    rw [hqp]
    exact tenure_bucket_range r.tenure
  · rw [hm]
    intro q hq
    refine ⟨groupMeanKV_val_bounds _ (label_pairs_bounded s.rows _ hlab) q hq, ?_⟩
    obtain ⟨p, hp, hqp⟩ := groupMeanKV_keys _ q hq
    rw [List.mem_map] at hp
    obtain ⟨r, _, rfl⟩ := hp
    rw [hqp]
    exact monthly_bucket_range r.monthlyCharges

theorem dashboard_rates_bounded_witness :
    (∀ q ∈ (dashboardHandler demoState).1.contract, 0 ≤ q.2 ∧ q.2 ≤ 1) ∧
    (∀ q ∈ (dashboardHandler demoState).1.tenure, (0 ≤ q.2 ∧ q.2 ≤ 1) ∧
      (q.1 = "0-12" ∨ q.1 = "13-24" ∨ q.1 = "25+")) ∧
    (∀ q ∈ (dashboardHandler demoState).1.monthly, (0 ≤ q.2 ∧ q.2 ≤ 1) ∧
      (q.1 = "0-50" ∨ q.1 = "51-100" ∨ q.1 = "101+")) :=
  dashboard_rates_bounded demoState (by
    intro r hr
    rw [demoState, List.mem_singleton] at hr
    rw [hr]
    right
    rfl)

theorem firstMax_eq_none_iff (l : List FamilyResult) : firstMax l = none ↔ l = [] := by
  cases l with
  | nil => simp [firstMax]
  | cons r rest =>
    cases h : firstMax rest with
    | none => simp [firstMax, h]
    | some m =>
      simp only [firstMax, h]
      constructor
      · intro hcon
        exfalso
        revert hcon
        split <;> simp
      · intro hcon
        exact absurd hcon (List.cons_ne_nil r rest)

theorem stepBest_assoc (acc : Option String × ℚ) (r m : FamilyResult) :
    stepBest (stepBest acc r) m = stepBest acc (if r.auc < m.auc then m else r) := by
  unfold stepBest
  by_cases hr : acc.2 < r.auc <;> by_cases hm : r.auc < m.auc <;>
    simp [hr, hm] <;> first
      | rfl
      | (intro hc; exfalso; linarith)
      | (split_ifs <;> first | rfl | (exfalso; linarith))

theorem trainLoop_elim (l : List FamilyResult) :
    ∀ acc, trainLoop acc l = (firstMax l).elim acc (stepBest acc) := by
  induction l with
  | nil => intro acc; rfl
  | cons r rest ih =>
    intro acc
    have h1 : trainLoop acc (r :: rest) = trainLoop (stepBest acc r) rest := rfl
    rw [h1, ih]
    cases h : firstMax rest with
    | none =>
      have hrest : rest = [] := (firstMax_eq_none_iff rest).mp h
      subst hrest
      rfl
    | some m =>
      simp only [firstMax, h, Option.elim]
      rw [stepBest_assoc]
      split <;> rfl

theorem firstMax_spec (l : List FamilyResult) (m : FamilyResult) (h : firstMax l = some m) :
    ∃ pre post, l = pre ++ m :: post ∧
      (∀ x ∈ pre, x.auc < m.auc) ∧ ∀ x ∈ post, x.auc ≤ m.auc := by
  induction l generalizing m with
  | nil => simp [firstMax] at h
  | cons r rest ih =>
    cases hr : firstMax rest with
    | none =>
      have hrest : rest = [] := (firstMax_eq_none_iff rest).mp hr
      subst hrest
      simp only [firstMax] at h
      obtain rfl : r = m := Option.some.inj h
      exact ⟨[], [], rfl, by simp, by simp⟩
    | some m0 =>
      simp only [firstMax, hr] at h
      by_cases hlt : r.auc < m0.auc
      · rw [if_pos hlt] at h
        have hm0 : m0 = m := Option.some.inj h
        obtain ⟨pre0, post0, hdec, hpre, hpost⟩ := ih m0 hr
        rw [hm0] at hdec hpre hpost hlt
        refine ⟨r :: pre0, post0, by rw [hdec]; rfl, ?_, hpost⟩
        intro x hx
        rcases List.mem_cons.mp hx with rfl | hx0
        · exact hlt
        · exact hpre x hx0
      · rw [if_neg hlt] at h
        obtain rfl : r = m := Option.some.inj h
        obtain ⟨pre0, post0, hdec, hpre, hpost⟩ := ih m0 hr
        refine ⟨[], rest, rfl, by simp, ?_⟩
        intro x hx
        rw [hdec] at hx
        rcases List.mem_append.mp hx with hx0 | hx1
        · exact le_trans (le_of_lt (hpre x hx0)) (not_lt.mp hlt)
        · rcases List.mem_cons.mp hx1 with rfl | hx2
          · exact not_lt.mp hlt
          · exact le_trans (hpost x hx2) (not_lt.mp hlt)

theorem trainLoop_result (fams : List FamilyResult) (hne : fams ≠ [])
    (hauc : ∀ r ∈ fams, -1 < r.auc) :
    ∃ m, firstMax fams = some m ∧ m ∈ fams ∧
      trainLoop (none, -1) fams = (some m.name, m.auc) := by
  cases h : firstMax fams with
  | none => exact absurd ((firstMax_eq_none_iff fams).mp h) hne
  | some m =>
    obtain ⟨pre, post, hdec, _, _⟩ := firstMax_spec fams m h
    have hmem : m ∈ fams := by
      rw [hdec]
      exact List.mem_append_right pre (List.mem_cons_self m post)
    refine ⟨m, rfl, hmem, ?_⟩
    rw [trainLoop_elim fams (none, -1), h]
    have hm : (-1 : ℚ) < m.auc := hauc m hmem
    simp [Option.elim, stepBest, hm]

theorem runTrainer_eq_of_loop (fams : List FamilyResult) (nm : String) (a : ℚ)
    (h : trainLoop (none, -1) fams = (some nm, a)) :
    runTrainer fams = some (buildMetrics fams, nm) := by
  unfold runTrainer
  rw [h]

theorem lookup_buildMetrics (fams : List FamilyResult) (nm : String)
    (h : ∃ r ∈ fams, r.name = nm) :
    ∃ fm, (buildMetrics fams).lookup nm = some fm := by
  induction fams with
  | nil =>
    obtain ⟨r, hr, _⟩ := h
    exact absurd hr (List.not_mem_nil r)
  | cons r rest ih =>
    have hcons : buildMetrics (r :: rest) =
        (r.name, ⟨pyRound 3 r.auc, pyRound 3 r.accuracy, familyImportance r.rawImportance⟩) ::
          buildMetrics rest := rfl
    by_cases hr : r.name = nm
    · refine ⟨⟨pyRound 3 r.auc, pyRound 3 r.accuracy, familyImportance r.rawImportance⟩, ?_⟩
      rw [hcons]
      simp [List.lookup, hr]
    · obtain ⟨x, hx, hxn⟩ := h
      rcases List.mem_cons.mp hx with rfl | hx2
      · exact absurd hxn hr
      · obtain ⟨fm, hfm⟩ := ih ⟨x, hx2, hxn⟩
        refine ⟨fm, ?_⟩
        rw [hcons]
        have hb : (nm == r.name) = false :=
          beq_eq_false_iff_ne.mpr fun hh => hr hh.symm
        simp [List.lookup, hb, hfm]

/-- C2: across the evaluated model families the training loop selects
the family attaining the highest held-out auc, and on a tie the family
occurring earlier in iteration order is kept: every family before the
selected one scores strictly lower and every family after it scores no
higher, because the running best is replaced only on strict improvement;
the selected family's name is what the trainer persists. -/
theorem trainer_selects_first_max (fams : List FamilyResult) (hne : fams ≠ [])
    (hauc : ∀ r ∈ fams, -1 < r.auc) :
    ∃ m pre post, fams = pre ++ m :: post ∧
      trainLoop (none, -1) fams = (some m.name, m.auc) ∧
      runTrainer fams = some (buildMetrics fams, m.name) ∧
      (∀ x ∈ pre, x.auc < m.auc) ∧ ∀ x ∈ post, x.auc ≤ m.auc := by
  obtain ⟨m, hfm, hmem, hloop⟩ := trainLoop_result fams hne hauc
  obtain ⟨pre, post, hdec, hpre, hpost⟩ := firstMax_spec fams m hfm
  exact ⟨m, pre, post, hdec, hloop, runTrainer_eq_of_loop fams m.name m.auc hloop, hpre, hpost⟩

theorem trainer_selects_first_max_witness :
    ∃ m pre post, demoFams = pre ++ m :: post ∧
      trainLoop (none, -1) demoFams = (some m.name, m.auc) ∧
      runTrainer demoFams = some (buildMetrics demoFams, m.name) ∧
      (∀ x ∈ pre, x.auc < m.auc) ∧ ∀ x ∈ post, x.auc ≤ m.auc :=
  trainer_selects_first_max demoFams (by simp [demoFams]) (by
    intro r hr
    simp only [demoFams, List.mem_cons, List.not_mem_nil, or_false] at hr
    rcases hr with rfl | rfl | rfl <;> norm_num)

/-- C3: whenever the trainer writes the metrics report, the report's
current_model name is also a key of the report, and the entry stored
under it carries (structurally non-null) auc and accuracy values. -/
theorem metrics_current_model_is_key (fams : List FamilyResult) (hne : fams ≠ [])
    (hauc : ∀ r ∈ fams, -1 < r.auc) :
    ∃ rep cur fm, runTrainer fams = some (rep, cur) ∧ rep.lookup cur = some fm := by
  obtain ⟨m, _, hmem, hloop⟩ := trainLoop_result fams hne hauc
  obtain ⟨fm, hfm2⟩ := lookup_buildMetrics fams m.name ⟨m, hmem, rfl⟩
  exact ⟨buildMetrics fams, m.name, fm, runTrainer_eq_of_loop fams m.name m.auc hloop, hfm2⟩

theorem metrics_current_model_is_key_witness :
    ∃ rep cur fm, runTrainer demoFams = some (rep, cur) ∧ rep.lookup cur = some fm :=
  metrics_current_model_is_key demoFams (by simp [demoFams]) (by
    intro r hr
    simp only [demoFams, List.mem_cons, List.not_mem_nil, or_false] at hr
    rcases hr with rfl | rfl | rfl <;> norm_num)

/-- C7: for each evaluated family the recorded feature-importance
mapping is empty when extraction raised, and the report still gets one
entry per family (training continues); on success the mapping has at
most 20 entries, each an original post-encoding feature name paired with
its importance rounded to 4 decimal places, and the kept entries are the
ones largest in absolute value: a reordering of the raw list realises
the mapping as its first 20 entries, every one of which dominates in
absolute value every entry left out. -/
theorem feature_importance_top20 :
    (∀ e, familyImportance (Except.error e) = []) ∧
    (∀ l, (topImportance l).length ≤ 20) ∧
    (∀ l p, p ∈ topImportance l → ∃ q ∈ l, p = (q.1, pyRound 4 q.2)) ∧
    (∀ l : List (String × ℚ), ∃ srt : List (String × ℚ), srt.Perm l ∧
      topImportance l = (srt.take 20).map (fun q => (q.1, pyRound 4 q.2)) ∧
      ∀ a ∈ srt.take 20, ∀ b ∈ srt.drop 20, |b.2| ≤ |a.2|) ∧
    (∀ fams, (buildMetrics fams).map Prod.fst = fams.map FamilyResult.name) := by
  refine ⟨fun e => rfl, ?_, ?_, ?_, ?_⟩
  · intro l
    rw [topImportance, List.length_map, List.length_take]
    exact min_le_left _ _
  · intro l p hp
    rw [topImportance, List.mem_map] at hp
    obtain ⟨q, hq, rfl⟩ := hp
    have hq2 : q ∈ l.mergeSort fun a b => decide (|b.2| ≤ |a.2|) := List.mem_of_mem_take hq
    exact ⟨q, (List.mergeSort_perm l _).subset hq2, rfl⟩
  · intro l
    refine ⟨l.mergeSort fun a b => decide (|b.2| ≤ |a.2|), List.mergeSort_perm l _, rfl, ?_⟩
    have htrans : ∀ a b c : String × ℚ, decide (|b.2| ≤ |a.2|) = true →
        decide (|c.2| ≤ |b.2|) = true → decide (|c.2| ≤ |a.2|) = true := by
      intro a b c hab hbc
      rw [decide_eq_true_iff] at hab hbc ⊢
      exact le_trans hbc hab
    have htotal : ∀ a b : String × ℚ,
        (decide (|b.2| ≤ |a.2|) || decide (|a.2| ≤ |b.2|)) = true := by
      intro a b
      rcases le_total (|b.2|) (|a.2|) with h | h <;> simp [h]
    have hpw := List.sorted_mergeSort htrans htotal l
    rw [(List.take_append_drop 20 (l.mergeSort fun a b => decide (|b.2| ≤ |a.2|))).symm] at hpw
    have hcross := (List.pairwise_append.mp hpw).2.2
    intro a ha b hb
    have hres := hcross a ha b hb
    rwa [decide_eq_true_iff] at hres
  · intro fams
    rw [buildMetrics, List.map_map]
    rfl

theorem feature_importance_top20_witness :
    ∃ q ∈ demoImportance, ("tenure", pyRound 4 (-2)) = (q.1, pyRound 4 q.2) :=
  feature_importance_top20.2.2.1 demoImportance ("tenure", pyRound 4 (-2))
    (by simp [topImportance, demoImportance])

end ChurnApp
